import Mathlib

/-!
Shallow embedding of the orchestration core in `backend/ai_orchestrator.py`.

Conventions of the embedding:
* The HTTP chat backend (`ollama_chat`'s POST to the chat-completion endpoint
  and extraction of `choices[0].message.content`) is an oracle
  `backend : String → List Message → ℚ → Option String → Except BackendError String`
  mapping (model, messages, temperature, response_format) to the raw reply
  content; a network/HTTP failure (`raise_for_status`, connection error) is
  `Except.error`.
* Wall-clock readings of `time.time()` are a stream `ts : Nat → ℚ` of exact
  rationals, consumed in the static order the source calls `time.time()`
  (index 0 = `total_start`, 1/2 = question stage, 3/4 = competitor stage,
  5/6 = judge stage, 7 = the final reading).  Python's `round(x, 3)` on these
  idealised readings is round-half-even at three decimals (`round3`).
* Python's `json.loads` is modelled by `jsonLoads`, a fueled recursive-descent
  parser for strict JSON (objects, arrays, strings with escapes, integers,
  numbers with fraction/exponent, `true`/`false`/`null`); numbers carrying a
  fraction or exponent are kept abstract as their source literal
  (`Json.float`), and UTF-16 surrogate pairs in `\uXXXX` escapes are not
  combined.  Duplicate object keys resolve to the last occurrence, as in
  Python's dict construction.
* `asyncio.gather` over the competitor tasks is rendered sequentially in task
  order (`gatherAnswers`); gather preserves the argument order of its results,
  and on failure the model propagates the first failing task in list order.
-/

/-- A JSON value as produced by `json.loads`. -/
inductive Json where
  | null : Json
  | bool (b : Bool) : Json
  | int (n : Int) : Json
  | float (lit : String) : Json
  | str (s : String) : Json
  | arr (xs : List Json) : Json
  | obj (fields : List (String × Json)) : Json
deriving BEq

/-- The character `"` (code 34). -/
def quoteChar : Char := Char.ofNat 34

/-- The backslash character (code 92). -/
def backslashChar : Char := Char.ofNat 92

/-- The opening curly brace (code 123). -/
def lbraceChar : Char := Char.ofNat 123

/-- The closing curly brace (code 125). -/
def rbraceChar : Char := Char.ofNat 125

/-- The single-quote character (code 39), used by Python `repr` of strings. -/
def squote : String := String.mk [Char.ofNat 39]

/-- JSON insignificant whitespace (RFC 8259, as accepted by `json.loads`). -/
def jsonWs (c : Char) : Bool :=
  c == ' ' || c == '\t' || c == '\n' || c == '\r'

/-- Drop leading JSON whitespace. -/
def skipWs : List Char → List Char
  | [] => []
  | c :: cs => if jsonWs c then skipWs cs else c :: cs

/-- Value of one hexadecimal digit. -/
def hexVal (c : Char) : Option Nat :=
  if '0' ≤ c ∧ c ≤ '9' then some (c.toNat - 48)
  else if 'a' ≤ c ∧ c ≤ 'f' then some (c.toNat - 87)
  else if 'A' ≤ c ∧ c ≤ 'F' then some (c.toNat - 55)
  else none

/-- Single-character JSON string escapes. -/
def escChar (e : Char) : Option Char :=
  if e == quoteChar then some quoteChar
  else if e == backslashChar then some backslashChar
  else if e == '/' then some '/'
  else if e == 'n' then some '\n'
  else if e == 't' then some '\t'
  else if e == 'r' then some '\r'
  else if e == 'b' then some (Char.ofNat 8)
  else if e == 'f' then some (Char.ofNat 12)
  else none

/-- Parse the body of a JSON string literal (the opening quote already
consumed), returning the decoded characters and the remainder after the
closing quote. -/
def parseStrChars : Nat → List Char → Option (List Char × List Char)
  | 0, _ => none
  | _, [] => none
  | fuel + 1, c :: cs =>
    if c == quoteChar then some ([], cs)
    else if c == backslashChar then
      match cs with
      | [] => none
      | e :: cs2 =>
        if e == 'u' then
          match cs2 with
          | a :: b :: c3 :: d :: cs3 =>
            match hexVal a, hexVal b, hexVal c3, hexVal d with
            | some ha, some hb, some hc, some hd =>
              match parseStrChars fuel cs3 with
              | some (s, r) =>
                some (Char.ofNat (((ha * 16 + hb) * 16 + hc) * 16 + hd) :: s, r)
              | none => none
            | _, _, _, _ => none
          | _ => none
        else
          match escChar e with
          | some ch =>
            match parseStrChars fuel cs2 with
            | some (s, r) => some (ch :: s, r)
            | none => none
          | none => none
    else
      match parseStrChars fuel cs with
      | some (s, r) => some (c :: s, r)
      | none => none

/-- Split off a maximal run of decimal digits. -/
def takeDigits : List Char → List Char × List Char
  | [] => ([], [])
  | c :: cs =>
    if c.isDigit then
      let (ds, r) := takeDigits cs
      (c :: ds, r)
    else ([], c :: cs)

/-- Decimal digits to a natural number. -/
def digitsToNat (ds : List Char) : Nat :=
  ds.foldl (fun acc c => acc * 10 + (c.toNat - 48)) 0

/-- Parse a JSON number starting at the first character of the literal.
Integers become `Json.int`; a literal with a fraction or exponent part is
kept as `Json.float` of its source text. -/
def parseNumber (cs : List Char) : Option (Json × List Char) :=
  let (neg, cs1) :=
    match cs with
    | c :: rest => if c == '-' then (true, rest) else (false, cs)
    | [] => (false, ([] : List Char))
  match cs1 with
  | [] => none
  | d :: rest =>
    if !d.isDigit then none
    else
      let (intDigits, afterInt) :=
        if d == '0' then ([d], rest) else takeDigits cs1
      let (fracDigits, afterFrac, hasFrac) :=
        match afterInt with
        | '.' :: fr =>
          let (fds, r) := takeDigits fr
          (fds, r, true)
        | _ => ([], afterInt, false)
      if hasFrac ∧ fracDigits = [] then none
      else
        let (expChars, afterExp, hasExp) :=
          match afterFrac with
          | e :: er =>
            if e == 'e' || e == 'E' then
              match er with
              | s :: er2 =>
                if s == '+' || s == '-' then
                  let (eds, r) := takeDigits er2
                  (e :: s :: eds, r, true)
                else
                  let (eds, r) := takeDigits er
                  (e :: eds, r, true)
              | [] => ([e], ([] : List Char), true)
            else ([], afterFrac, false)
          | [] => ([], afterFrac, false)
        if hasExp ∧ (expChars.filter Char.isDigit) = [] then none
        else if hasFrac ∨ hasExp then
          let lit :=
            (if neg then ['-'] else []) ++ intDigits ++
            (if hasFrac then '.' :: fracDigits else []) ++ expChars
          some (Json.float (String.mk lit), afterExp)
        else
          let n : Int := Int.ofNat (digitsToNat intDigits)
          some (Json.int (if neg then -n else n), afterInt)

mutual

/-- Parse one JSON value (leading whitespace allowed). -/
def parseVal : Nat → List Char → Option (Json × List Char)
  | 0, _ => none
  | fuel + 1, cs =>
    match skipWs cs with
    | [] => none
    | c :: rest =>
      if c == lbraceChar then parseObjRest fuel rest
      else if c == '[' then parseArrRest fuel rest
      else if c == quoteChar then
        match parseStrChars (fuel + 1) rest with
        | some (s, r) => some (Json.str (String.mk s), r)
        | none => none
      else if c == 't' then
        match rest with
        | 'r' :: 'u' :: 'e' :: r => some (Json.bool true, r)
        | _ => none
      else if c == 'f' then
        match rest with
        | 'a' :: 'l' :: 's' :: 'e' :: r => some (Json.bool false, r)
        | _ => none
      else if c == 'n' then
        match rest with
        | 'u' :: 'l' :: 'l' :: r => some (Json.null, r)
        | _ => none
      else if c == '-' || c.isDigit then parseNumber (c :: rest)
      else none

/-- Parse the remainder of a JSON array, the `[` already consumed. -/
def parseArrRest : Nat → List Char → Option (Json × List Char)
  | 0, _ => none
  | fuel + 1, cs =>
    match skipWs cs with
    | ']' :: rest => some (Json.arr [], rest)
    | cs2 =>
      match parseElems fuel cs2 with
      | some (vs, rest) => some (Json.arr vs, rest)
      | none => none

/-- Parse one or more comma-separated array elements up to the closing `]`. -/
def parseElems : Nat → List Char → Option (List Json × List Char)
  | 0, _ => none
  | fuel + 1, cs =>
    match parseVal fuel cs with
    | some (v, rest) =>
      match skipWs rest with
      | ',' :: rest2 =>
        match parseElems fuel rest2 with
        | some (vs, rest3) => some (v :: vs, rest3)
        | none => none
      | ']' :: rest2 => some ([v], rest2)
      | _ => none
    | none => none

/-- Parse the remainder of a JSON object, the opening brace consumed. -/
def parseObjRest : Nat → List Char → Option (Json × List Char)
  | 0, _ => none
  | fuel + 1, cs =>
    match skipWs cs with
    | [] => none
    | c :: rest =>
      if c == rbraceChar then some (Json.obj [], rest)
      else
        match parseMembers fuel (c :: rest) with
        | some (fs, rest2) => some (Json.obj fs, rest2)
        | none => none

/-- Parse one or more `"key": value` members up to the closing brace. -/
def parseMembers : Nat → List Char → Option (List (String × Json) × List Char)
  | 0, _ => none
  | fuel + 1, cs =>
    match skipWs cs with
    | [] => none
    | c :: rest =>
      if c == quoteChar then
        match parseStrChars (fuel + 1) rest with
        | some (key, rest2) =>
          match skipWs rest2 with
          | ':' :: rest3 =>
            match parseVal fuel rest3 with
            | some (v, rest4) =>
              match skipWs rest4 with
              | ',' :: rest5 =>
                match parseMembers fuel rest5 with
                | some (fs, rest6) => some ((String.mk key, v) :: fs, rest6)
                | none => none
              | c2 :: rest5 =>
                if c2 == rbraceChar then some ([(String.mk key, v)], rest5)
                else none
              | [] => none
            | none => none
          | _ => none
        | none => none
      else none

end

/-- Model of Python `json.loads` on the character sequence of the input:
parse one value, require only whitespace after it. -/
def jsonLoads (cs : List Char) : Option Json :=
  match parseVal (8 * cs.length + 8) cs with
  | some (v, rest) => if skipWs rest = [] then some v else none
  | none => none

/-- `dict.get` on the members of a parsed JSON object: as in Python's JSON
decoding, a duplicated key resolves to its last occurrence. -/
def jsonDictGet (fields : List (String × Json)) (key : String) : Option Json :=
  match fields with
  | [] => none
  | (k, v) :: rest =>
    match jsonDictGet rest key with
    | some v2 => some v2
    | none => if k = key then some v else none

/-- Python string whitespace as removed by `str.strip()` (ASCII range). -/
def pyWs (c : Char) : Bool :=
  c == ' ' || c == '\t' || c == '\n' || c == '\r' ||
    c == Char.ofNat 11 || c == Char.ofNat 12

/-- Python `str.strip()`: drop leading and trailing whitespace. -/
def pyStrip (s : String) : String :=
  String.mk (((s.data.dropWhile pyWs).reverse.dropWhile pyWs).reverse)

/-- The brace-slicing heuristic of `judge_answers`: when both an opening and a
closing curly brace occur, slice from the first opening brace to the last
closing brace inclusive (`raw[raw.find("\x7b") : raw.rfind("\x7d") + 1]`);
otherwise keep the text unchanged. -/
def sliceBraces (cs : List Char) : List Char :=
  if cs.contains lbraceChar && cs.contains rbraceChar then
    let i := cs.findIdx (fun c => c == lbraceChar)
    let j := cs.length - 1 - cs.reverse.findIdx (fun c => c == rbraceChar)
    (cs.drop i).take (j + 1 - i)
  else cs

/-- The defensive ranking extraction in `judge_answers`: trim, slice between
the outermost braces, `json.loads`, read `results` (default `[]`), and force
any non-list value — or any failure (parse error, non-dict value whose `.get`
raises) — to the empty list. -/
def judgeParseRanking (raw_output : String) : List Json :=
  let raw := pyStrip raw_output
  let cs := sliceBraces raw.data
  match jsonLoads cs with
  | none => []
  | some (Json.obj fields) =>
    match jsonDictGet fields "results" with
    | some (Json.arr xs) => xs
    | some _ => []
    | none => []
  | some _ => []

/-- The value reached by steps (1)-(4) of the parsing algorithm: trim, slice
between the outermost braces, parse as JSON, read the `results` member of the
resulting object (`none` when parsing fails, the value is not an object, or
the member is absent). -/
def resultsValue (raw_output : String) : Option Json :=
  match jsonLoads (sliceBraces (pyStrip raw_output).data) with
  | some (Json.obj fields) => jsonDictGet fields "results"
  | _ => none

/-- Whether a JSON value is an integer. -/
def Json.isInt : Json → Bool
  | .int _ => true
  | _ => false

mutual

/-- Python `repr` of a decoded JSON value (`str` applied to the list a turn
stores under `ranking`), as interpolated by the f-string
`f"Ranking: \x7branking\x7d"`.  String escaping and float formatting are kept
schematic (the stored literal), which agrees with Python on the integer
rankings this repository produces. -/
def pyReprJson : Json → String
  | .null => "None"
  | .bool true => "True"
  | .bool false => "False"
  | .int n => toString n
  | .float lit => lit
  | .str s => squote ++ s ++ squote
  | .arr xs => "[" ++ pyReprCommaSep xs ++ "]"
  | .obj fs => "\x7b" ++ pyReprFieldsSep fs ++ "\x7d"

/-- Comma-separated `repr`s of list elements. -/
def pyReprCommaSep : List Json → String
  | [] => ""
  | [x] => pyReprJson x
  | x :: y :: rest => pyReprJson x ++ ", " ++ pyReprCommaSep (y :: rest)

/-- Comma-separated `repr`s of dict entries. -/
def pyReprFieldsSep : List (String × Json) → String
  | [] => ""
  | [(k, v)] => squote ++ k ++ squote ++ ": " ++ pyReprJson v
  | (k, v) :: f :: rest =>
    squote ++ k ++ squote ++ ": " ++ pyReprJson v ++ ", " ++
      pyReprFieldsSep (f :: rest)

end

/-- One conversation turn as read and produced by the orchestrator: the dict
`\x7b"question": ..., "answers": [...], "ranking": [...]\x7d`.  `ranking` is
`none` when the key is absent from an input turn. -/
structure ConversationTurn where
  question : String
  answers : List String
  ranking : Option (List Json)

/-- The `Ranking:` line of one rendered turn: emitted only when the turn has a
truthy (present and non-empty) `ranking` value, mirroring
`ranking = turn.get("ranking"); if ranking: ...`. -/
def ranking_line : Option (List Json) → String
  | some [] => ""
  | some (r :: rest) => "Ranking: " ++ pyReprJson (Json.arr (r :: rest)) ++ "\n"
  | none => ""

/-- The `Competitor i: <answer>` lines of one rendered turn, `i` counted
1-based from `enumerate(answers)`. -/
def renderAnswers : Nat → List String → String
  | _, [] => ""
  | i, ans :: rest =>
    "Competitor " ++ toString (i + 1) ++ ": " ++ ans ++ "\n" ++
      renderAnswers (i + 1) rest

/-- One turn of the context block, at 0-based position `idx` of the loop
`for idx, turn in enumerate(conversation)`. -/
def renderTurn (idx : Nat) (turn : ConversationTurn) : String :=
  "Turn " ++ toString (idx + 1) ++ ":\n" ++
  "Question: " ++ turn.question ++ "\n" ++
  renderAnswers 0 turn.answers ++
  ranking_line turn.ranking ++
  "\n"

/-- The body of the context-builder loop, accumulating each turn in order. -/
def renderTurns : Nat → List ConversationTurn → String
  | _, [] => ""
  | idx, t :: rest => renderTurn idx t ++ renderTurns (idx + 1) rest

/-- `build_context_block`: empty string on an empty history, otherwise a
header followed by every turn in order. -/
def build_context_block (conversation : List ConversationTurn) : String :=
  match conversation with
  | [] => ""
  | _ => "Previous Conversation Context:\n\n" ++ renderTurns 0 conversation

/-- One role-tagged chat message. -/
structure Message where
  role : String
  content : String

/-- The only failure of the chat client: the HTTP call could not complete
(connection error or non-2xx status raised by `raise_for_status`). -/
inductive BackendError where
  | unavailable (detail : String) : BackendError
deriving DecidableEq

/-- The backend oracle: raw reply content of a model for a message list at a
temperature, with an optional structured-output format hint. -/
def ChatBackend : Type :=
  String → List Message → ℚ → Option String → Except BackendError String

/-- `ollama_chat`: POST the chat-completion payload and return the trimmed
content of the first choice; HTTP-level failure propagates. -/
def ollama_chat (backend : ChatBackend) (model : String)
    (messages : List Message) (temperature : ℚ)
    (response_format : Option String) : Except BackendError String :=
  (backend model messages temperature response_format).map pyStrip

/-- `QUESTION_MODEL` from the static configuration. -/
def QUESTION_MODEL : String := "llama3.2"

/-- `COMPETITOR_MODELS`: the statically configured competitor list. -/
def COMPETITOR_MODELS : List String :=
  ["mistral:latest", "gemma3:1b", "llama3.2"]

/-- `JUDGE_MODEL` from the static configuration. -/
def JUDGE_MODEL : String := "llama3.2"

/-- `build_initial_messages`: the fixed question-generation instruction. -/
def build_initial_messages : List Message :=
  [⟨"user",
    "Please come up with a challenging, nuanced question that I can ask " ++
    "a number of LLMs to evaluate their intelligence. " ++
    "Answer only with the question, no explanation."⟩]

/-- `generate_question`: one chat call to the question model at the default
temperature 0 with no format hint, timed by the clock readings `ts k` (start)
and `ts (k + 1)` (return). -/
def generate_question (backend : ChatBackend) (ts : Nat → ℚ) (k : Nat) :
    Except BackendError (String × ℚ) :=
  let start := ts k
  match ollama_chat backend QUESTION_MODEL build_initial_messages 0 none with
  | .error e => .error e
  | .ok question => .ok (question, ts (k + 1) - start)

/-- The shared competitor prompt: the f-string of
`generate_competitor_answers` (context block, current question, answering
instruction) stripped of outer whitespace. -/
def competitorPrompt (question : String)
    (conversation : List ConversationTurn) : String :=
  let context_block := build_context_block conversation
  pyStrip ("\n" ++ context_block ++ "\n\nCurrent Question:\n" ++ question ++
   "\n\nProvide your best possible answer considering the previous context " ++
   "if relevant.\n")

/-- `asyncio.gather` over one `ollama_chat` task per model, rendered in task
order: all replies in argument order on success, the first failing task's
error otherwise. -/
def gatherAnswers (backend : ChatBackend) (messages : List Message) :
    List String → Except BackendError (List String)
  | [] => .ok []
  | model :: rest =>
    match ollama_chat backend model messages 0 none with
    | .error e => .error e
    | .ok a =>
      match gatherAnswers backend messages rest with
      | .error e => .error e
      | .ok answers => .ok (a :: answers)

/-- `generate_competitor_answers`: build the shared single-turn user prompt,
query every configured competitor model concurrently on it, and return the
static model list alongside the answers in request order, timed by
`ts k` / `ts (k + 1)`. -/
def generate_competitor_answers (backend : ChatBackend) (ts : Nat → ℚ)
    (k : Nat) (question : String) (conversation : List ConversationTurn) :
    Except BackendError (List String × List String × ℚ) :=
  let start := ts k
  let messages := [Message.mk "user" (competitorPrompt question conversation)]
  match gatherAnswers backend messages COMPETITOR_MODELS with
  | .error e => .error e
  | .ok answers => .ok (COMPETITOR_MODELS, answers, ts (k + 1) - start)

/-- The `Competitor i:` enumeration inside the judge prompt. -/
def combinedAnswers : Nat → List String → String
  | _, [] => ""
  | i, answer :: rest =>
    "Competitor " ++ toString (i + 1) ++ ":\n" ++ answer ++ "\n\n" ++
      combinedAnswers (i + 1) rest

/-- `build_judge_prompt`: context, current question, enumerated responses and
the strict-JSON output contract, stripped of outer whitespace. -/
def build_judge_prompt (question : String) (answers : List String)
    (conversation : List ConversationTurn) : String :=
  let context_block := build_context_block conversation
  let combined := combinedAnswers 0 answers
  pyStrip ("\nYou must rank the competitors from best to worst.\n\n" ++
   context_block ++
   "\n\nCurrent Question:\n" ++ question ++
   "\n\nResponses:\n" ++ combined ++
   "\n\nReturn ONLY valid JSON in this exact structure:\n\n" ++
   "\x7b\n  \"results\": [list_of_competitor_numbers_in_best_to_worst_order]" ++
   "\n\x7d\n\nRules:\n- No explanations\n- No markdown\n- No commentary\n" ++
   "- No extra text\n- Strict JSON only\n")

/-- The two-message payload of the judge call. -/
def judgeMessages (question : String) (answers : List String)
    (conversation : List ConversationTurn) : List Message :=
  [Message.mk "system" "You are a strict ranking engine. Output JSON only.",
   Message.mk "user" (build_judge_prompt question answers conversation)]

/-- `judge_answers`: one chat call to the judge model at temperature 0 with
the JSON format hint, its raw reply pushed through the defensive ranking
extraction; timed by `ts k` / `ts (k + 1)`.  The `competitors` argument is
accepted and unused, as in the source. -/
def judge_answers (backend : ChatBackend) (ts : Nat → ℚ) (k : Nat)
    (question : String) (competitors : List String) (answers : List String)
    (conversation : List ConversationTurn) :
    Except BackendError (List Json × ℚ) :=
  let start := ts k
  let _ := competitors
  match ollama_chat backend JUDGE_MODEL
      (judgeMessages question answers conversation) 0 (some "json") with
  | .error e => .error e
  | .ok raw_output => .ok (judgeParseRanking raw_output, ts (k + 1) - start)

/-- Round-half-even to the nearest integer, the tie-breaking rule of Python's
built-in `round`. -/
def roundHalfEven (x : ℚ) : ℤ :=
  let f : ℤ := ⌊x⌋
  let r : ℚ := x - f
  if r < 1 / 2 then f
  else if 1 / 2 < r then f + 1
  else if f % 2 = 0 then f else f + 1

/-- Python's `round(x, 3)` on the idealised (exact rational) reading. -/
def round3 (x : ℚ) : ℚ :=
  (roundHalfEven (x * 1000) : ℚ) / 1000

/-- `MAX_TURNS`, the conversation-window bound of `run_orchestration`. -/
def MAX_TURNS : Nat := 5

/-- The window policy `request.conversation[-MAX_TURNS:]` (an empty history
stays empty, matching the `if request.conversation else []` guard). -/
def truncate_window (conversation : List ConversationTurn) :
    List ConversationTurn :=
  conversation.drop (conversation.length - MAX_TURNS)

/-- `OrchestrateRequest` (from `backend/schemas.py`): the boundary-validated
request body.  Pydantic's range checks on `num_competitors` and `temperature`
are a collaborator concern and not re-imposed here. -/
structure OrchestrateRequest where
  session_id : String
  question : Option String
  conversation : List ConversationTurn
  num_competitors : Nat
  temperature : ℚ

/-- The `latency` sub-dict of the response payload. -/
structure LatencyBreakdown where
  question_generation_sec : ℚ
  competitor_generation_sec : ℚ
  judge_sec : ℚ
  total_sec : ℚ

/-- The response payload assembled by `run_orchestration`. -/
structure OrchestrationResult where
  question : String
  competitors : List String
  answers : List String
  ranking : List Json
  latency : LatencyBreakdown
  conversation : List ConversationTurn

/-- `run_orchestration`: truncate the conversation window, run question
generation, competitor fan-out and judging strictly in order (any backend
failure aborts the run with that error), then assemble the payload with
rounded per-stage latencies and the window extended by the new turn.
Clock readings: `ts 0` is `total_start`, indices 1-6 the stage-internal
readings in call order, `ts 7` the final reading. -/
def run_orchestration (backend : ChatBackend) (ts : Nat → ℚ)
    (request : OrchestrateRequest) :
    Except BackendError OrchestrationResult :=
  let total_start := ts 0
  let conversation := truncate_window request.conversation
  match generate_question backend ts 1 with
  | .error e => .error e
  | .ok (question, q_latency) =>
    match generate_competitor_answers backend ts 3 question conversation with
    | .error e => .error e
    | .ok (competitors, answers, c_latency) =>
      match judge_answers backend ts 5 question competitors answers
          conversation with
      | .error e => .error e
      | .ok (ranking, j_latency) =>
        let total_time := round3 (ts 7 - total_start)
        let updated_conversation :=
          conversation ++ [ConversationTurn.mk question answers (some ranking)]
        .ok (OrchestrationResult.mk question competitors answers ranking
          (LatencyBreakdown.mk (round3 q_latency) (round3 c_latency)
            (round3 j_latency) total_time)
          updated_conversation)

/-! ## Helper lemmas -/

/-- An infix of a list is an infix of any right-extension. -/
theorem infixOfAppendRight {α : Type} {l m n : List α} (h : l <:+: m) :
    l <:+: m ++ n := by
  obtain ⟨s, t, rfl⟩ := h
  exact ⟨s, t ++ n, by simp⟩

/-- An infix of a list is an infix of any left-extension. -/
theorem infixOfAppendLeft {α : Type} {l m n : List α} (h : l <:+: n) :
    l <:+: m ++ n := by
  obtain ⟨s, t, rfl⟩ := h
  exact ⟨m ++ s, t, by simp⟩

/-- A successful `gatherAnswers` returns one answer per model, each the
(trimmed) reply of the model at that index for the shared messages at
temperature 0 with no format hint. -/
theorem gatherAnswers_ok {backend : ChatBackend} {messages : List Message}
    (models : List String) :
    ∀ {answers : List String},
      gatherAnswers backend messages models = .ok answers →
      answers.length = models.length ∧
      ∀ i (him : i < models.length) (hia : i < answers.length),
        ollama_chat backend (models.get ⟨i, him⟩) messages 0 none =
          .ok (answers.get ⟨i, hia⟩) := by
  induction models with
  | nil =>
    intro answers h
    unfold gatherAnswers at h
    injection h with h1
    subst h1
    exact ⟨rfl, fun i him _ => absurd him (by simp)⟩
  | cons model rest ih =>
    intro answers h
    unfold gatherAnswers at h
    cases hc : ollama_chat backend model messages 0 none with
    | error e => rw [hc] at h; exact absurd h (by simp)
    | ok a =>
      rw [hc] at h
      cases hr : gatherAnswers backend messages rest with
      | error e => rw [hr] at h; exact absurd h (by simp)
      | ok tailAns =>
        rw [hr] at h
        injection h with h1
        subst h1
        obtain ⟨hlen, hidx⟩ := ih hr
        refine ⟨by simp [hlen], ?_⟩
        intro i him hia
        cases i with
        | zero => simpa using hc
        | succ n =>
          simpa using hidx n (by simpa using him) (by simpa using hia)

/-- A failing `gatherAnswers` fails with the error of one of the models'
calls. -/
theorem gatherAnswers_error {backend : ChatBackend} {messages : List Message}
    (models : List String) :
    ∀ {e : BackendError},
      gatherAnswers backend messages models = .error e →
      ∃ m, m ∈ models ∧ ollama_chat backend m messages 0 none = .error e := by
  induction models with
  | nil => intro e h; unfold gatherAnswers at h; exact absurd h (by simp)
  | cons model rest ih =>
    intro e h
    unfold gatherAnswers at h
    cases hc : ollama_chat backend model messages 0 none with
    | error e2 =>
      rw [hc] at h
      injection h with h1
      subst h1
      exact ⟨model, by simp, hc⟩
    | ok a =>
      rw [hc] at h
      cases hr : gatherAnswers backend messages rest with
      | error e2 =>
        rw [hr] at h
        injection h with h1
        subst h1
        obtain ⟨m, hm, hcall⟩ := ih hr
        exact ⟨m, by simp [hm], hcall⟩
      | ok tailAns => rw [hr] at h; exact absurd h (by simp)

/-! ## C1: the ranking parser -/

/-- C1: the ranking parser trims, slices between the first opening and last
closing brace when both occur, parses the slice as JSON, reads `results`,
and yields the empty sequence whenever that field is not a list or any step
fails; on the four concrete inputs of the spec it returns `[2, 1, 3]`, `[]`,
`[]` and `[]`. -/
theorem ranking_parser_contract :
    judgeParseRanking "blah \x7b\"results\":[2,1,3]\x7d trailing" =
      [Json.int 2, Json.int 1, Json.int 3] ∧
    judgeParseRanking "no json here" = [] ∧
    judgeParseRanking "\x7b\"results\": \"not-a-list\"\x7d" = [] ∧
    judgeParseRanking "" = [] ∧
    ∀ raw : String,
      (∀ xs : List Json, resultsValue raw ≠ some (Json.arr xs)) →
      judgeParseRanking raw = [] := by
  refine ⟨rfl, rfl, rfl, rfl, ?_⟩
  intro raw h
  unfold judgeParseRanking
  unfold resultsValue at h
  cases hj : jsonLoads (sliceBraces (pyStrip raw).data) with
  | none => simp [hj]
  | some v =>
    cases v with
    | obj fields =>
      rw [hj] at h
      cases hg : jsonDictGet fields "results" with
      | none => simp [hj, hg]
      | some w =>
        cases w with
        | arr xs => exact absurd hg (h xs)
        | null => simp [hj, hg]
        | bool b => simp [hj, hg]
        | int n => simp [hj, hg]
        | float lit => simp [hj, hg]
        | str s => simp [hj, hg]
        | obj fs => simp [hj, hg]
    | null => simp [hj]
    | bool b => simp [hj]
    | int n => simp [hj]
    | float lit => simp [hj]
    | str s => simp [hj]
    | arr xs => simp [hj]

/-- Witness for C1: the universally quantified failure clause applied to the
concrete reply `"no json here"`. -/
theorem ranking_parser_contract_witness :
    judgeParseRanking "no json here" = [] := by
  apply ranking_parser_contract.2.2.2.2 "no json here"
  intro xs h
  rw [show resultsValue "no json here" = none from rfl] at h
  exact Option.noConfusion h

/-! ## C7: structural validity of returned rankings -/

/-- Counterexample to C7 as stated: on the reply
`\x7b"results": ["a"]\x7d` the parser returns the non-empty list
`[Json.str "a"]`, whose element is not an integer — the code checks only
`isinstance(ranking, list)`, never the element types. -/
theorem ranking_integer_elements_cex :
    judgeParseRanking "\x7b\"results\": [\"a\"]\x7d" = [Json.str "a"] ∧
    (judgeParseRanking "\x7b\"results\": [\"a\"]\x7d").all Json.isInt = false :=
  ⟨rfl, rfl⟩

/-- C7 (amended): the core enforces only structural JSON-array validity of
the `results` field — a non-array (or missing, or unreachable) value yields
the empty sequence, and an array value is returned exactly as decoded,
whatever the types of its elements. -/
theorem ranking_structural_validity (raw : String) :
    ((∀ xs : List Json, resultsValue raw ≠ some (Json.arr xs)) →
      judgeParseRanking raw = []) ∧
    (∀ xs : List Json, resultsValue raw = some (Json.arr xs) →
      judgeParseRanking raw = xs) := by
  constructor
  · exact ranking_parser_contract.2.2.2.2 raw
  · intro xs hx
    unfold judgeParseRanking
    unfold resultsValue at hx
    cases hj : jsonLoads (sliceBraces (pyStrip raw).data) with
    | none => rw [hj] at hx; exact absurd hx (by simp)
    | some v =>
      cases v with
      | obj fields =>
        rw [hj] at hx
        simp only [] at hx
        simp [hj, hx]
      | null => rw [hj] at hx; exact absurd hx (by simp)
      | bool b => rw [hj] at hx; exact absurd hx (by simp)
      | int n => rw [hj] at hx; exact absurd hx (by simp)
      | float lit => rw [hj] at hx; exact absurd hx (by simp)
      | str s => rw [hj] at hx; exact absurd hx (by simp)
      | arr ys => rw [hj] at hx; exact absurd hx (by simp)

/-- Witness for C7 (amended): a conforming array of integers is returned as
decoded. -/
theorem ranking_structural_validity_witness :
    judgeParseRanking "\x7b\"results\": [4]\x7d" = [Json.int 4] :=
  (ranking_structural_validity "\x7b\"results\": [4]\x7d").2 [Json.int 4] rfl

/-- Inversion of a successful question stage. -/
theorem generate_question_ok {backend : ChatBackend} {ts : Nat → ℚ} {k : Nat}
    {q : String} {lat : ℚ}
    (h : generate_question backend ts k = .ok (q, lat)) :
    ollama_chat backend QUESTION_MODEL build_initial_messages 0 none = .ok q ∧
      lat = ts (k + 1) - ts k := by
  unfold generate_question at h
  cases hc : ollama_chat backend QUESTION_MODEL build_initial_messages 0 none with
  | error e => rw [hc] at h; exact absurd h (by simp)
  | ok question =>
    rw [hc] at h
    simp only [Except.ok.injEq, Prod.mk.injEq] at h
    obtain ⟨h1, h2⟩ := h
    subst h1
    exact ⟨rfl, h2.symm⟩

/-- Inversion of a successful competitor stage. -/
theorem generate_competitor_answers_ok {backend : ChatBackend} {ts : Nat → ℚ}
    {k : Nat} {question : String} {conversation : List ConversationTurn}
    {competitors answers : List String} {lat : ℚ}
    (h : generate_competitor_answers backend ts k question conversation =
      .ok (competitors, answers, lat)) :
    competitors = COMPETITOR_MODELS ∧
      gatherAnswers backend
        [Message.mk "user" (competitorPrompt question conversation)]
        COMPETITOR_MODELS = .ok answers ∧
      lat = ts (k + 1) - ts k := by
  unfold generate_competitor_answers at h
  simp only [] at h
  cases hg : gatherAnswers backend
      [Message.mk "user" (competitorPrompt question conversation)]
      COMPETITOR_MODELS with
  | error e => rw [hg] at h; exact absurd h (by simp)
  | ok fanAnswers =>
    rw [hg] at h
    simp only [Except.ok.injEq, Prod.mk.injEq] at h
    obtain ⟨h1, h2, h3⟩ := h
    exact ⟨h1.symm, by rw [h2], h3.symm⟩

/-- Inversion of a successful judge stage. -/
theorem judge_answers_ok {backend : ChatBackend} {ts : Nat → ℚ} {k : Nat}
    {question : String} {competitors answers : List String}
    {conversation : List ConversationTurn} {ranking : List Json} {lat : ℚ}
    (h : judge_answers backend ts k question competitors answers conversation =
      .ok (ranking, lat)) :
    (∃ raw,
      ollama_chat backend JUDGE_MODEL
        (judgeMessages question answers conversation) 0 (some "json") =
        .ok raw ∧
      ranking = judgeParseRanking raw) ∧
    lat = ts (k + 1) - ts k := by
  unfold judge_answers at h
  cases hc : ollama_chat backend JUDGE_MODEL
      (judgeMessages question answers conversation) 0 (some "json") with
  | error e => rw [hc] at h; exact absurd h (by simp)
  | ok raw =>
    rw [hc] at h
    simp only [Except.ok.injEq, Prod.mk.injEq] at h
    obtain ⟨h1, h2⟩ := h
    exact ⟨⟨raw, rfl, h1.symm⟩, h2.symm⟩

/-- Inversion of a successful orchestration run: the payload is the assembled
response with the static competitor list, per-stage rounded latencies from the
clock stream, and the truncated window extended by the new turn. -/
theorem run_orchestration_ok_shape {backend : ChatBackend} {ts : Nat → ℚ}
    {request : OrchestrateRequest} {p : OrchestrationResult}
    (h : run_orchestration backend ts request = .ok p) :
    ∃ question answers ranking,
      p = OrchestrationResult.mk question COMPETITOR_MODELS answers ranking
        (LatencyBreakdown.mk (round3 (ts 2 - ts 1)) (round3 (ts 4 - ts 3))
          (round3 (ts 6 - ts 5)) (round3 (ts 7 - ts 0)))
        (truncate_window request.conversation ++
          [ConversationTurn.mk question answers (some ranking)]) ∧
      answers.length = COMPETITOR_MODELS.length := by
  unfold run_orchestration at h
  cases hq : generate_question backend ts 1 with
  | error e => rw [hq] at h; exact absurd h (by simp)
  | ok qpair =>
    obtain ⟨question, qlat⟩ := qpair
    rw [hq] at h
    simp only [] at h
    cases hc : generate_competitor_answers backend ts 3 question
        (truncate_window request.conversation) with
    | error e => rw [hc] at h; exact absurd h (by simp)
    | ok cpair =>
      obtain ⟨competitors, answers, clat⟩ := cpair
      rw [hc] at h
      simp only [] at h
      cases hj : judge_answers backend ts 5 question competitors answers
          (truncate_window request.conversation) with
      | error e => rw [hj] at h; exact absurd h (by simp)
      | ok jpair =>
        obtain ⟨ranking, jlat⟩ := jpair
        rw [hj] at h
        simp only [Except.ok.injEq] at h
        obtain ⟨hchat, hql⟩ := generate_question_ok hq
        obtain ⟨hcomp, hgather, hcl⟩ := generate_competitor_answers_ok hc
        obtain ⟨_, hjl⟩ := judge_answers_ok hj
        obtain ⟨hlen, _⟩ := gatherAnswers_ok COMPETITOR_MODELS hgather
        subst hcomp
        subst hql
        subst hcl
        subst hjl
        exact ⟨question, answers, ranking, h.symm, hlen⟩

/-! ## C2: competitor fan-out alignment -/

/-- C2: a successful competitor fan-out returns exactly the statically
configured model list, one answer per competitor, and `answers[i]` is the
reply of model `competitors[i]` to the identical shared single-turn user
prompt, aligned by the static request order of the model list. -/
theorem competitor_fanout_alignment (backend : ChatBackend) (ts : Nat → ℚ)
    (k : Nat) (question : String) (conversation : List ConversationTurn)
    (competitors answers : List String) (elapsed : ℚ)
    (h : generate_competitor_answers backend ts k question conversation =
      .ok (competitors, answers, elapsed)) :
    competitors = COMPETITOR_MODELS ∧
    answers.length = competitors.length ∧
    ∀ i (hic : i < competitors.length) (hia : i < answers.length),
      ollama_chat backend (competitors.get ⟨i, hic⟩)
        [Message.mk "user" (competitorPrompt question conversation)] 0 none =
        .ok (answers.get ⟨i, hia⟩) := by
  obtain ⟨hcomp, hgather, _⟩ := generate_competitor_answers_ok h
  subst hcomp
  obtain ⟨hlen, hidx⟩ := gatherAnswers_ok COMPETITOR_MODELS hgather
  exact ⟨rfl, hlen, fun i hic hia => hidx i hic hia⟩

/-- Backend used by witnesses: replies with a text naming the queried
model. -/
def wEchoBackend : ChatBackend :=
  fun model _ _ _ => .ok ("reply of " ++ model)

/-- The all-zero clock stream used by witnesses. -/
def wTs : Nat → ℚ := fun _ => 0

/-- The answers the echo backend produces for the competitor fan-out. -/
def wEchoAnswers : List String :=
  ["reply of mistral:latest", "reply of gemma3:1b", "reply of llama3.2"]

/-- Witness for C2: the alignment fact applied to the echo backend at
index 1 of the static model list. -/
theorem competitor_fanout_alignment_witness :
    ollama_chat wEchoBackend (COMPETITOR_MODELS.get ⟨1, by decide⟩)
      [Message.mk "user" (competitorPrompt "Q" [])] 0 none =
      .ok (wEchoAnswers.get ⟨1, by decide⟩) :=
  (competitor_fanout_alignment wEchoBackend wTs 0 "Q" [] COMPETITOR_MODELS
    wEchoAnswers (wTs 1 - wTs 0) rfl).2.2 1 (by decide) (by decide)

/-! ## C3: all-or-nothing failure propagation -/

/-- C3: a backend-unavailable failure of any single call — question
generation, any competitor call, or the judge call — makes the whole
orchestration fail with that error (the error result carries no payload, so
no partial answers and no updated conversation are returned); moreover every
error the fan-out propagates originates in one of the competitor calls. -/
theorem orchestrate_error_propagation (backend : ChatBackend) (ts : Nat → ℚ)
    (request : OrchestrateRequest) :
    (∀ e, ollama_chat backend QUESTION_MODEL build_initial_messages 0 none =
        .error e →
      run_orchestration backend ts request = .error e) ∧
    (∀ question lat e,
      generate_question backend ts 1 = .ok (question, lat) →
      gatherAnswers backend
        [Message.mk "user"
          (competitorPrompt question (truncate_window request.conversation))]
        COMPETITOR_MODELS = .error e →
      run_orchestration backend ts request = .error e) ∧
    (∀ question latq competitors answers latc e,
      generate_question backend ts 1 = .ok (question, latq) →
      generate_competitor_answers backend ts 3 question
        (truncate_window request.conversation) =
        .ok (competitors, answers, latc) →
      ollama_chat backend JUDGE_MODEL
        (judgeMessages question answers (truncate_window request.conversation))
        0 (some "json") = .error e →
      run_orchestration backend ts request = .error e) ∧
    (∀ messages e,
      gatherAnswers backend messages COMPETITOR_MODELS = .error e →
      ∃ m, m ∈ COMPETITOR_MODELS ∧
        ollama_chat backend m messages 0 none = .error e) := by
  refine ⟨?_, ?_, ?_, ?_⟩
  · intro e he
    unfold run_orchestration generate_question
    simp [he]
  · intro question lat e hq hg
    unfold run_orchestration
    simp only [hq]
    unfold generate_competitor_answers
    simp [hg]
  · intro question latq competitors answers latc e hq hc hj
    unfold run_orchestration
    simp only [hq, hc]
    unfold judge_answers
    simp [hj]
  · intro messages e hg
    exact gatherAnswers_error COMPETITOR_MODELS hg

/-- Backend used by the C3 witness: every call fails with the same
backend-unavailable error. -/
def wFailBackend : ChatBackend :=
  fun _ _ _ _ => .error (BackendError.unavailable "connection refused")

/-- A sample request used by witnesses. -/
def wReq : OrchestrateRequest :=
  OrchestrateRequest.mk "session-1" none [] 3 (7 / 10)

/-- Witness for C3: with a failing backend the whole run fails with that
backend error. -/
theorem orchestrate_error_propagation_witness :
    run_orchestration wFailBackend wTs wReq =
      .error (BackendError.unavailable "connection refused") :=
  (orchestrate_error_propagation wFailBackend wTs wReq).1
    (BackendError.unavailable "connection refused") rfl

/-! ## C4: window truncation -/

/-- Truncating an already-truncated window changes nothing. -/
theorem truncate_window_idem (c : List ConversationTurn) :
    truncate_window (truncate_window c) = truncate_window c := by
  unfold truncate_window MAX_TURNS
  rw [List.length_drop]
  rw [show c.length - (c.length - 5) - 5 = 0 by omega]
  exact List.drop_zero _

/-- C4: the orchestrator truncates the conversation window to exactly the
most recent 5 turns before any stage runs — a history longer than 5 keeps
precisely its 5-turn suffix, a history of at most 5 turns is kept whole, and
running on the pre-truncated history is indistinguishable from running on the
original request. -/
theorem conversation_window_truncation (H : List ConversationTurn) :
    (H.length > 5 →
      (truncate_window H).length = 5 ∧
      truncate_window H = H.drop (H.length - 5) ∧
      truncate_window H <:+ H) ∧
    (H.length ≤ 5 → truncate_window H = H) ∧
    (∀ (backend : ChatBackend) (ts : Nat → ℚ) (req : OrchestrateRequest),
      req.conversation = H →
      run_orchestration backend ts req =
        run_orchestration backend ts
          (OrchestrateRequest.mk req.session_id req.question
            (truncate_window H) req.num_competitors req.temperature)) := by
  refine ⟨?_, ?_, ?_⟩
  · intro h5
    refine ⟨?_, rfl, ?_⟩
    · unfold truncate_window MAX_TURNS
      rw [List.length_drop]
      omega
    · exact ⟨H.take (H.length - MAX_TURNS), List.take_append_drop _ _⟩
  · intro h5
    unfold truncate_window MAX_TURNS
    rw [show H.length - 5 = 0 by omega]
    exact List.drop_zero _
  · intro backend ts req hreq
    simp only [run_orchestration, hreq, truncate_window_idem]

/-- A sample turn for witnesses. -/
def wTurn : ConversationTurn := ConversationTurn.mk "q" [] none

/-- A six-turn history, one longer than the window bound. -/
def wLongHistory : List ConversationTurn :=
  [wTurn, wTurn, wTurn, wTurn, wTurn, wTurn]

/-- Witness for C4: a six-turn history is truncated to its five-turn
suffix. -/
theorem conversation_window_truncation_witness :
    (truncate_window wLongHistory).length = 5 ∧
    truncate_window wLongHistory =
      wLongHistory.drop (wLongHistory.length - 5) ∧
    truncate_window wLongHistory <:+ wLongHistory :=
  (conversation_window_truncation wLongHistory).1 (by decide)

/-! ## C5: the returned conversation window -/

/-- C5: a successful run returns the already-truncated input window with its
prior turns unchanged and in order, followed by exactly one appended turn of
the new question, answers and ranking; its length is
`min (len input) 5 + 1`, which exceeds the window bound by one when the input
had 5 or more turns. -/
theorem returned_window_append (backend : ChatBackend) (ts : Nat → ℚ)
    (req : OrchestrateRequest) (p : OrchestrationResult)
    (h : run_orchestration backend ts req = .ok p) :
    p.conversation = truncate_window req.conversation ++
      [ConversationTurn.mk p.question p.answers (some p.ranking)] ∧
    p.conversation.length = min req.conversation.length 5 + 1 ∧
    p.conversation.dropLast <:+ req.conversation := by
  obtain ⟨question, answers, ranking, hp, hlen⟩ := run_orchestration_ok_shape h
  subst hp
  refine ⟨rfl, ?_, ?_⟩
  · simp only [List.length_append, List.length_cons, List.length_nil,
      truncate_window, MAX_TURNS, List.length_drop]
    omega
  · rw [show (truncate_window req.conversation ++
        [ConversationTurn.mk question answers (some ranking)]).dropLast =
        truncate_window req.conversation from by simp]
    exact ⟨req.conversation.take (req.conversation.length - MAX_TURNS),
      List.take_append_drop _ _⟩

/-- Backend used by success-path witnesses: a constant reply. -/
def wOkBackend : ChatBackend := fun _ _ _ _ => .ok "ok"

/-- The payload the constant backend and all-zero clock produce on the sample
request. -/
def wOkPayload : OrchestrationResult :=
  OrchestrationResult.mk "ok" COMPETITOR_MODELS ["ok", "ok", "ok"] []
    (LatencyBreakdown.mk (round3 (wTs 2 - wTs 1)) (round3 (wTs 4 - wTs 3))
      (round3 (wTs 6 - wTs 5)) (round3 (wTs 7 - wTs 0)))
    [ConversationTurn.mk "ok" ["ok", "ok", "ok"] (some [])]

/-- Witness for C5: a concrete successful run appends exactly one turn to the
(empty) truncated window. -/
theorem returned_window_append_witness :
    wOkPayload.conversation = truncate_window wReq.conversation ++
      [ConversationTurn.mk wOkPayload.question wOkPayload.answers
        (some wOkPayload.ranking)] ∧
    wOkPayload.conversation.length = min wReq.conversation.length 5 + 1 ∧
    wOkPayload.conversation.dropLast <:+ wReq.conversation :=
  returned_window_append wOkBackend wTs wReq wOkPayload rfl

/-! ## C6 and C10: the context builder -/

/-- A prefix of a list is also an infix. -/
theorem startInfix {α : Type} {l m : List α} (h : l <+: m) : l <:+: m := by
  obtain ⟨u, hu⟩ := h
  exact ⟨[], u, by simp [← hu]⟩

/-- Every rendered turn starts with its `Turn N:` header. -/
theorem renderTurn_starts_with_header (idx : Nat) (t : ConversationTurn) :
    ("Turn " ++ toString (idx + 1) ++ ":\n").data <+:
      (renderTurn idx t).data := by
  refine ⟨("Question: " ++ t.question ++ "\n" ++ renderAnswers 0 t.answers ++
    ranking_line t.ranking ++ "\n").data, ?_⟩
  simp [renderTurn, String.data_append]

/-- The rendered history contains the 1-based `Turn N:` header of each of its
turns. -/
theorem renderTurns_turn_header (conv : List ConversationTurn) :
    ∀ idx i, i < conv.length →
      ("Turn " ++ toString (idx + i + 1) ++ ":\n").data <:+:
        (renderTurns idx conv).data := by
  induction conv with
  | nil => intro idx i hi; exact absurd hi (by simp)
  | cons t rest ih =>
    intro idx i hi
    cases i with
    | zero =>
      rw [show idx + 0 + 1 = idx + 1 by omega]
      have h2 := startInfix (renderTurn_starts_with_header idx t)
      show _ <:+: (renderTurn idx t ++ renderTurns (idx + 1) rest).data
      rw [String.data_append]
      exact infixOfAppendRight h2
    | succ n =>
      rw [show idx + (n + 1) + 1 = idx + 1 + n + 1 by omega]
      have h2 := ih (idx + 1) n (by simpa using hi)
      show _ <:+: (renderTurn idx t ++ renderTurns (idx + 1) rest).data
      rw [String.data_append]
      exact infixOfAppendLeft h2

set_option maxRecDepth 100000 in
/-- C6: the Context Builder is a pure function of the history that returns
the empty string for an empty history; on the one-turn history with question
`Q1`, answer `A1` and ranking `[1]` its output contains `Turn 1:`,
`Question: Q1`, `Competitor 1: A1` and `Ranking: [1]`; and in general the
output contains the 1-based `Turn N:` header of every turn in order. -/
theorem context_builder_rendering :
    build_context_block [] = "" ∧
    ("Turn 1:".data <:+: (build_context_block
      [ConversationTurn.mk "Q1" ["A1"] (some [Json.int 1])]).data) ∧
    ("Question: Q1".data <:+: (build_context_block
      [ConversationTurn.mk "Q1" ["A1"] (some [Json.int 1])]).data) ∧
    ("Competitor 1: A1".data <:+: (build_context_block
      [ConversationTurn.mk "Q1" ["A1"] (some [Json.int 1])]).data) ∧
    ("Ranking: [1]".data <:+: (build_context_block
      [ConversationTurn.mk "Q1" ["A1"] (some [Json.int 1])]).data) ∧
    (∀ (conv : List ConversationTurn) i, i < conv.length →
      ("Turn " ++ toString (i + 1) ++ ":\n").data <:+:
        (build_context_block conv).data) := by
  refine ⟨rfl, by decide, by decide, by decide, by decide, ?_⟩
  intro conv i hi
  cases conv with
  | nil => exact absurd hi (by simp)
  | cons t rest =>
    show _ <:+:
      ("Previous Conversation Context:\n\n" ++ renderTurns 0 (t :: rest)).data
    rw [String.data_append]
    have h := renderTurns_turn_header (t :: rest) 0 i hi
    rw [show 0 + i + 1 = i + 1 by omega] at h
    exact infixOfAppendLeft h

/-- Witness for C6: the header clause applied to a concrete one-turn
history. -/
theorem context_builder_rendering_witness :
    ("Turn " ++ toString (0 + 1) ++ ":\n").data <:+:
      (build_context_block [wTurn]).data :=
  context_builder_rendering.2.2.2.2.2 [wTurn] 0 (by decide)

/-- A nonempty history renders as the fixed header followed by its turns. -/
theorem build_context_block_cons_eq (conv : List ConversationTurn)
    (h : conv ≠ []) :
    build_context_block conv =
      "Previous Conversation Context:\n\n" ++ renderTurns 0 conv := by
  cases conv with
  | nil => exact absurd rfl h
  | cons t rest => rfl

/-- Replacing one turn by one that renders identically at every index leaves
the rendered history unchanged. -/
theorem renderTurns_congr (t1 t2 : ConversationTurn)
    (h : ∀ k, renderTurn k t1 = renderTurn k t2)
    (pre post : List ConversationTurn) :
    ∀ idx, renderTurns idx (pre ++ t1 :: post) =
      renderTurns idx (pre ++ t2 :: post) := by
  induction pre with
  | nil =>
    intro idx
    show renderTurn idx t1 ++ renderTurns (idx + 1) post =
      renderTurn idx t2 ++ renderTurns (idx + 1) post
    rw [h idx]
  | cons p ps ih =>
    intro idx
    show renderTurn idx p ++ renderTurns (idx + 1) (ps ++ t1 :: post) =
      renderTurn idx p ++ renderTurns (idx + 1) (ps ++ t2 :: post)
    rw [ih (idx + 1)]

/-- C10: a turn whose ranking is the empty sequence (the terminal state of a
failed judge) renders exactly like a turn that has no ranking at all — the
`Ranking:` line is suppressed in both cases, at every position of the
history. -/
theorem empty_ranking_rendering (pre post : List ConversationTurn)
    (q : String) (answers : List String) :
    build_context_block
        (pre ++ ConversationTurn.mk q answers (some []) :: post) =
      build_context_block
        (pre ++ ConversationTurn.mk q answers none :: post) ∧
    ranking_line (some []) = "" ∧
    ranking_line none = "" ∧
    (∀ idx, renderTurn idx (ConversationTurn.mk q answers (some [])) =
      renderTurn idx (ConversationTurn.mk q answers none)) := by
  have hturn : ∀ idx,
      renderTurn idx (ConversationTurn.mk q answers (some [])) =
        renderTurn idx (ConversationTurn.mk q answers none) :=
    fun idx => rfl
  refine ⟨?_, rfl, rfl, hturn⟩
  rw [build_context_block_cons_eq _ (by simp),
    build_context_block_cons_eq _ (by simp)]
  exact congrArg (fun s => "Previous Conversation Context:\n\n" ++ s)
    (renderTurns_congr _ _ hturn pre post 0)

/-! ## C8: the latency invariant -/

/-- Round-half-even overshoots its argument by at most one half. -/
theorem roundHalfEven_le (x : ℚ) : (roundHalfEven x : ℚ) ≤ x + 1 / 2 := by
  simp only [roundHalfEven]
  have h0 : (⌊x⌋ : ℚ) ≤ x := Int.floor_le x
  have h1 : x < ⌊x⌋ + 1 := Int.lt_floor_add_one x
  split_ifs <;> push_cast <;> linarith

/-- Round-half-even undershoots its argument by at most one half. -/
theorem roundHalfEven_ge (x : ℚ) : x - 1 / 2 ≤ (roundHalfEven x : ℚ) := by
  simp only [roundHalfEven]
  have h0 : (⌊x⌋ : ℚ) ≤ x := Int.floor_le x
  have h1 : x < ⌊x⌋ + 1 := Int.lt_floor_add_one x
  split_ifs <;> push_cast <;> linarith

/-- `round(x, 3)` overshoots by at most `1/2000`. -/
theorem round3_le (x : ℚ) : round3 x ≤ x + 1 / 2000 := by
  unfold round3
  rw [div_le_iff₀ (by norm_num : (0 : ℚ) < 1000)]
  have h := roundHalfEven_le (x * 1000)
  linarith

/-- `round(x, 3)` undershoots by at most `1/2000`. -/
theorem round3_ge (x : ℚ) : x - 1 / 2000 ≤ round3 x := by
  unfold round3
  rw [le_div_iff₀ (by norm_num : (0 : ℚ) < 1000)]
  have h := roundHalfEven_ge (x * 1000)
  linarith

/-- C8 (amended): for a nondecreasing clock, the sequential-stage sum of the
reported (rounded) latencies is bounded by the reported total plus the
worst-case combined rounding error `4 × 1/2000 = 1/500`; the exact inequality
`total_sec >= q + c + j` holds for the unrounded durations but can be
violated by up to `1/500` after each field is rounded to three decimals. -/
theorem latency_sum_bound (backend : ChatBackend) (ts : Nat → ℚ)
    (req : OrchestrateRequest) (p : OrchestrationResult)
    (hmono : ∀ i j : Nat, i ≤ j → ts i ≤ ts j)
    (h : run_orchestration backend ts req = .ok p) :
    p.latency.question_generation_sec + p.latency.competitor_generation_sec +
      p.latency.judge_sec ≤ p.latency.total_sec + 1 / 500 := by
  obtain ⟨question, answers, ranking, hp, -⟩ := run_orchestration_ok_shape h
  subst hp
  show round3 (ts 2 - ts 1) + round3 (ts 4 - ts 3) + round3 (ts 6 - ts 5) ≤
    round3 (ts 7 - ts 0) + 1 / 500
  have h01 := hmono 0 1 (by omega)
  have h12 := hmono 1 2 (by omega)
  have h23 := hmono 2 3 (by omega)
  have h34 := hmono 3 4 (by omega)
  have h45 := hmono 4 5 (by omega)
  have h56 := hmono 5 6 (by omega)
  have h67 := hmono 6 7 (by omega)
  have hq := round3_le (ts 2 - ts 1)
  have hc := round3_le (ts 4 - ts 3)
  have hj := round3_le (ts 6 - ts 5)
  have ht := round3_ge (ts 7 - ts 0)
  linarith

/-- Witness for C8 (amended): the bound applied to a concrete run under the
constant clock. -/
theorem latency_sum_bound_witness :
    wOkPayload.latency.question_generation_sec +
      wOkPayload.latency.competitor_generation_sec +
      wOkPayload.latency.judge_sec ≤
      wOkPayload.latency.total_sec + 1 / 500 :=
  latency_sum_bound wOkBackend wTs wReq wOkPayload
    (fun _ _ _ => le_refl 0) rfl

/-- The nondecreasing clock of the C8 counterexample: readings 0, 0,
16/10000, 16/10000, 32/10000, 32/10000, 48/10000, 48/10000 — each stage lasts
0.0016 s and the whole run 0.0048 s. -/
def cexTs : Nat → ℚ := fun i =>
  if i ≤ 1 then 0
  else if i ≤ 3 then 1 / 625
  else if i ≤ 5 then 2 / 625
  else 3 / 625

/-- The request of the C8 counterexample. -/
def cexReq : OrchestrateRequest :=
  OrchestrateRequest.mk "session-2" none [] 3 0

/-- The payload the counterexample run returns: each stage latency rounds up
to 0.002 while the total rounds to 0.005. -/
def cexPayload : OrchestrationResult :=
  OrchestrationResult.mk "ok" COMPETITOR_MODELS ["ok", "ok", "ok"] []
    (LatencyBreakdown.mk (1 / 500) (1 / 500) (1 / 500) (1 / 200))
    [ConversationTurn.mk "ok" ["ok", "ok", "ok"] (some [])]

/-- `round(0.0016, 3) = 0.002`. -/
theorem round3_at_1_625 : round3 (1 / 625) = 1 / 500 := by
  have hf : ⌊(1 : ℚ) / 625 * 1000⌋ = 1 := by
    rw [show (1 : ℚ) / 625 * 1000 = 8 / 5 by norm_num, Int.floor_eq_iff]
    norm_num
  simp only [round3, roundHalfEven, hf]
  norm_num

/-- `round(0.0048, 3) = 0.005`. -/
theorem round3_at_3_625 : round3 (3 / 625) = 1 / 200 := by
  have hf : ⌊(3 : ℚ) / 625 * 1000⌋ = 4 := by
    rw [show (3 : ℚ) / 625 * 1000 = 24 / 5 by norm_num, Int.floor_eq_iff]
    norm_num
  simp only [round3, roundHalfEven, hf]
  norm_num

/-- Counterexample to C8 as stated: under the nondecreasing clock `cexTs`
(each stage takes 0.0016 s, the run 0.0048 s) the rounded fields of the
returned latency breakdown satisfy `total_sec = 0.005 < 0.006 =
question_generation_sec + competitor_generation_sec + judge_sec`, so the
reported sum of stage measurements is not a lower bound on the reported
wall-clock total after rounding. -/
theorem latency_sum_after_rounding_cex :
    run_orchestration wOkBackend cexTs cexReq = .ok cexPayload ∧
    cexPayload.latency.total_sec <
      cexPayload.latency.question_generation_sec +
      cexPayload.latency.competitor_generation_sec +
      cexPayload.latency.judge_sec := by
  constructor
  · have hrun : run_orchestration wOkBackend cexTs cexReq =
        .ok (OrchestrationResult.mk "ok" COMPETITOR_MODELS ["ok", "ok", "ok"]
          []
          (LatencyBreakdown.mk (round3 (cexTs 2 - cexTs 1))
            (round3 (cexTs 4 - cexTs 3)) (round3 (cexTs 6 - cexTs 5))
            (round3 (cexTs 7 - cexTs 0)))
          [ConversationTurn.mk "ok" ["ok", "ok", "ok"] (some [])]) := rfl
    have e1 : round3 (cexTs 2 - cexTs 1) = 1 / 500 := by
      rw [show cexTs 2 - cexTs 1 = 1 / 625 by norm_num [cexTs]]
      exact round3_at_1_625
    have e2 : round3 (cexTs 4 - cexTs 3) = 1 / 500 := by
      rw [show cexTs 4 - cexTs 3 = 1 / 625 by norm_num [cexTs]]
      exact round3_at_1_625
    have e3 : round3 (cexTs 6 - cexTs 5) = 1 / 500 := by
      rw [show cexTs 6 - cexTs 5 = 1 / 625 by norm_num [cexTs]]
      exact round3_at_1_625
    have e4 : round3 (cexTs 7 - cexTs 0) = 1 / 200 := by
      rw [show cexTs 7 - cexTs 0 = 3 / 625 by norm_num [cexTs]]
      exact round3_at_3_625
    rw [hrun, e1, e2, e3, e4]
    rfl
  · show (1 : ℚ) / 200 < 1 / 500 + 1 / 500 + 1 / 500
    norm_num

/-! ## C9: noninterference of non-conversation request fields -/

/-- C9: the run depends only on the request's conversation field and on the
backend's behaviour at temperature 0 — two requests agreeing on
`conversation` (but differing in session id, user question, competitor count
or temperature), run against two backends agreeing on all temperature-0
calls, produce identical results. -/
theorem request_noninterference (backend backend2 : ChatBackend)
    (ts : Nat → ℚ) (req req2 : OrchestrateRequest)
    (hconv : req.conversation = req2.conversation)
    (hagree : ∀ model messages fmt,
      backend model messages 0 fmt = backend2 model messages 0 fmt) :
    run_orchestration backend ts req = run_orchestration backend2 ts req2 := by
  have hchat : ∀ model messages fmt,
      ollama_chat backend model messages 0 fmt =
        ollama_chat backend2 model messages 0 fmt := by
    intro model messages fmt
    unfold ollama_chat
    rw [hagree]
  have hgather : ∀ (messages : List Message) (models : List String),
      gatherAnswers backend messages models =
        gatherAnswers backend2 messages models := by
    intro messages models
    induction models with
    | nil => rfl
    | cons m rest ih =>
      unfold gatherAnswers
      rw [hchat, ih]
  unfold run_orchestration generate_question generate_competitor_answers
    judge_answers
  simp only [hconv, hchat, hgather]

/-- A second backend that agrees with the constant one at temperature 0 but
differs elsewhere. -/
def w9Backend2 : ChatBackend :=
  fun _ _ t _ => if t = 0 then Except.ok "ok" else Except.ok "warm"

/-- A request differing from `wReq` in session id, user question, competitor
count and temperature, but not in conversation. -/
def w9Req2 : OrchestrateRequest :=
  OrchestrateRequest.mk "other-session" (some "user question") [] 1 (3 / 2)

/-- Witness for C9: the two concrete runs coincide. -/
theorem request_noninterference_witness :
    run_orchestration wOkBackend wTs wReq =
      run_orchestration w9Backend2 wTs w9Req2 :=
  request_noninterference wOkBackend w9Backend2 wTs wReq w9Req2 rfl
    (fun model messages fmt => by simp [wOkBackend, w9Backend2])
